import Mathlib

/-!
Shallow embedding of `src/main.rs` of the shoppinglist-backend service
(actix-web + rusqlite over a single SQLite table `shopping_items`).

The table has columns `id INTEGER PRIMARY KEY`, `name TEXT NOT NULL`,
`is_shopped BOOLEAN NOT NULL`.  `BOOLEAN` has NUMERIC affinity in SQLite, so a
cell of that column holds either a TEXT or an INTEGER storage-class value at
run time:

* `add_item` (main.rs lines 66-77) binds `item.is_shopped.to_string()`, i.e.
  the text `"true"` or `"false"`; neither is a well-formed numeric literal, so
  NUMERIC affinity keeps the TEXT storage class.
* `update_item_status` (lines 79-90) executes
  `UPDATE shopping_items SET is_shopped = NOT is_shopped WHERE id = ?1`.
  SQLite's `NOT` coerces its operand to a number (a text operand contributes
  its longest numeric prefix, hence `0` for `"true"`/`"false"`) and yields the
  INTEGER `0` or `1`, which NUMERIC affinity stores as an INTEGER.
* `get_shopping_list` (lines 19-64) reads the cell with
  `row.get::<String>(2)`; rusqlite's `FromSql for String` only accepts TEXT
  values and fails with `InvalidColumnType` on an INTEGER, which makes the
  whole request answer 500.

The embedding models a cell of that column as `SqlVal`, the table as a list of
rows, and each HTTP handler as a function from the lock-acquisition outcome
and the table to a response (and the table left behind).
-/

/-- Storage-class value held by the `is_shopped` column: TEXT or INTEGER. -/
inductive SqlVal where
  | text (s : String)
  | int (n : Int)
deriving DecidableEq, Repr

/-- One row of `shopping_items`. -/
structure Row where
  id : Int
  name : String
  is_shopped : SqlVal
deriving DecidableEq, Repr

/-- The `shopping_items` table: its rows, in physical (insertion) order. -/
abbrev Table := List Row

/-- Decoded item as serialized by `get_shopping_list` (struct `ShoppingItem`;
the wire `id` is always `Some` here since it is read from the row). -/
structure Item where
  id : Int
  name : String
  is_shopped : Bool
deriving DecidableEq, Repr

/-- Outcome of `data.db.lock()`. -/
inductive LockResult where
  | ok
  | poisoned
deriving DecidableEq

/-- Handler outcome: the HTTP responses the handlers build, plus `panicked`
for an `unwrap()` on an `Err` (no HTTP response is produced on that path). -/
inductive HResp where
  | okJson (items : List Item)
  | okEmpty
  | badRequest
  | internalServerError
  | panicked
deriving DecidableEq, Repr

/-- Value of the decimal-digit run at the head of `cs`, accumulated onto
`acc`; stops at the first non-digit. -/
def digitsVal : List Char → Nat → Nat
  | c :: cs, acc => if c.isDigit then digitsVal cs (acc * 10 + (c.toNat - 48)) else acc
  | [], acc => acc

/-- SQLite text-to-numeric coercion, restricted to integer prefixes (the only
texts this system ever stores in `is_shopped` are `"true"` and `"false"`,
which coerce to `0`; `"0"`/`"1"` would coerce to themselves). -/
def textToInt (s : String) : Int :=
  match s.data with
  | '-' :: cs => - (digitsVal cs 0 : Int)
  | '+' :: cs => (digitsVal cs 0 : Int)
  | cs => (digitsVal cs 0 : Int)

/-- Numeric coercion of a stored value, as SQLite's `NOT` applies it. -/
def sqlToNum : SqlVal → Int
  | .int n => n
  | .text s => textToInt s

/-- SQLite `NOT x`: coerce to numeric, negate as a boolean, yield an INTEGER
(no NULLs occur here because the column is declared NOT NULL). -/
def sqlNot (v : SqlVal) : SqlVal :=
  .int (if sqlToNum v = 0 then 1 else 0)

/-- rusqlite `row.get::<String>`: only a TEXT value converts; an INTEGER value
fails with `InvalidColumnType`. -/
def getString : SqlVal → Except Unit String
  | .text s => .ok s
  | .int _ => .error ()

/-- Rust `str::to_lowercase`, character by character (all strings involved
are ASCII). -/
def strLower (s : String) : String :=
  String.mk (s.data.map Char.toLower)

/-- The boolean decoding in `get_shopping_list` (main.rs lines 40-44):
lowercase, then `"true" | "1"` is true, `"false" | "0"` is false, anything
else is false. -/
def decode_is_shopped (s : String) : Bool :=
  match strLower s with
  | "true" => true
  | "1" => true
  | "false" => false
  | "0" => false
  | _ => false

/-- Row comparison used to model `ORDER BY id`. -/
def rle (a b : Row) : Prop := a.id ≤ b.id

instance : DecidableRel rle := fun a b => Int.decLe a.id b.id

instance : IsTotal Row rle := ⟨fun a b => Int.le_total a.id b.id⟩

instance : IsTrans Row rle := ⟨fun _ _ _ => Int.le_trans⟩

/-- Result of `SELECT id, name, is_shopped FROM shopping_items ORDER BY id`:
the rows sorted ascending by `id`. -/
def listRows (t : Table) : List Row :=
  List.insertionSort rle t

/-- Decoding of one row inside the `query_map` closure of
`get_shopping_list`: read column 2 as a `String` (which can fail), then apply
the lenient boolean decoding. -/
def decodeRow (r : Row) : Except Unit Item := do
  let s ← getString r.is_shopped
  pure ⟨r.id, r.name, decode_is_shopped s⟩

/-- The collected `Vec<ShoppingItem>` of `get_shopping_list`: first row
mapping failure fails the whole collection. -/
def listItems (t : Table) : Except Unit (List Item) :=
  (listRows t).mapM decodeRow

/-- Handler `get_shopping_list` (main.rs lines 19-64): 500 when the lock is
poisoned, 500 when a row fails to decode, otherwise 200 with the items. -/
def get_shopping_list (lock : LockResult) (t : Table) : HResp :=
  match lock with
  | .poisoned => .internalServerError
  | .ok =>
    match listItems t with
    | .ok items => .okJson items
    | .error _ => .internalServerError

/-- `id` assigned by SQLite to a fresh row of an `INTEGER PRIMARY KEY` table:
one more than the largest existing rowid (1 on an empty table). -/
def nextId (t : Table) : Int :=
  1 + (t.map Row.id).foldr max 0

/-- Handler `add_item` (main.rs lines 66-77): `data.db.lock().unwrap()`
panics on a poisoned lock; otherwise
`INSERT INTO shopping_items (name, is_shopped) VALUES (?1, ?2)` with the
boolean bound as the text `"true"`/`"false"`. -/
def add_item (lock : LockResult) (name : String) (is_shopped : Bool) (t : Table) :
    HResp × Table :=
  match lock with
  | .poisoned => (.panicked, t)
  | .ok =>
    (.okEmpty, t ++ [⟨nextId t, name, .text (if is_shopped then "true" else "false")⟩])

/-- Handler `update_item_status` (main.rs lines 79-90): `lock().unwrap()`
panics on a poisoned lock; otherwise
`UPDATE shopping_items SET is_shopped = NOT is_shopped WHERE id = ?1`,
answered 200 whether or not any row matched. -/
def update_item_status (lock : LockResult) (item_id : Int) (t : Table) :
    HResp × Table :=
  match lock with
  | .poisoned => (.panicked, t)
  | .ok =>
    (.okEmpty,
      t.map fun r => if r.id = item_id then { r with is_shopped := sqlNot r.is_shopped } else r)

/-- `UPDATE shopping_items SET id = v WHERE id = p` under the eager PRIMARY
KEY uniqueness check: the statement fails when a row matches `p` and a
different value `v` is already present in the table (adequate for tables with
pairwise distinct ids, which is all this system ever has). On success every
matching row gets id `v`. -/
def updE (t : Table) (p v : Int) : Except Unit Table :=
  if (p != v) && (t.any fun r => r.id == p) && (t.any fun r => r.id == v) then
    .error ()
  else
    .ok (t.map fun r => if r.id = p then { r with id := v } else r)

/-- `SELECT id FROM shopping_items WHERE id IN (?1, ?2) ORDER BY id` inside
`swap_items`. -/
def matchIds (t : Table) (id1 id2 : Int) : List Int :=
  List.insertionSort (fun a b => a ≤ b)
    ((t.filter fun r => r.id == id1 || r.id == id2).map Row.id)

/-- Handler `swap_items` (main.rs lines 92-130): `lock().unwrap()` panics on a
poisoned lock; otherwise, inside one transaction, read the matching ids
sorted ascending; answer 400 (dropping the transaction, hence rolling back)
unless exactly two rows matched; otherwise run the three sentinel updates
`id = -1 WHERE id = lo`, `id = lo WHERE id = hi`, `id = hi WHERE id = -1`
(each `.unwrap()`ed, so a statement failure panics and the dropped
transaction rolls back) and commit. -/
def swap_items (lock : LockResult) (id1 id2 : Int) (t : Table) : HResp × Table :=
  match lock with
  | .poisoned => (.panicked, t)
  | .ok =>
    match matchIds t id1 id2 with
    | [lo, hi] =>
      match updE t lo (-1) with
      | .error _ => (.panicked, t)
      | .ok t1 =>
        match updE t1 hi lo with
        | .error _ => (.panicked, t)
        | .ok t2 =>
          match updE t2 (-1) hi with
          | .error _ => (.panicked, t)
          | .ok t3 => (.okEmpty, t3)
    | _ => (.badRequest, t)

/-- Mutating operations a client can drive the service through. -/
inductive Op where
  | create (name : String) (is_shopped : Bool)
  | toggle (id : Int)
  | swap (id1 id2 : Int)

/-- Table left behind by one successfully-locked operation. -/
def runOp (t : Table) : Op → Table
  | .create n b => (add_item .ok n b t).2
  | .toggle i => (update_item_status .ok i t).2
  | .swap i j => (swap_items .ok i j t).2

/-- Table reached from the empty table by a sequence of operations. -/
def run (ops : List Op) : Table :=
  ops.foldl runOp []

/-- Well-formedness every reachable table enjoys: pairwise distinct ids, all
non-negative. -/
def WF (t : Table) : Prop :=
  (t.map Row.id).Nodup ∧ ∀ r ∈ t, 0 ≤ r.id

instance (t : Table) : Decidable (WF t) := by
  unfold WF
  infer_instance

/-- Transposition of two ids. -/
def transpose (a b x : Int) : Int :=
  if x = a then b else if x = b then a else x

/-- Row with its id transposed. -/
def reId (a b : Int) (r : Row) : Row :=
  { r with id := transpose a b r.id }

/-! ### Basic facts about `transpose` and `reId` -/

theorem transpose_left (a b : Int) : transpose a b a = b := by
  simp [transpose]

theorem transpose_right (a b : Int) : transpose a b b = a := by
  unfold transpose
  by_cases h : b = a <;> simp [h]

theorem transpose_other {a b x : Int} (hxa : x ≠ a) (hxb : x ≠ b) :
    transpose a b x = x := by
  simp [transpose, hxa, hxb]

theorem transpose_invol (a b x : Int) : transpose a b (transpose a b x) = x := by
  unfold transpose
  by_cases hxa : x = a <;> by_cases hxb : x = b <;> simp [hxa, hxb]

theorem transpose_injective (a b : Int) : Function.Injective (transpose a b) := by
  intro x y h
  have := congrArg (transpose a b) h
  rwa [transpose_invol, transpose_invol] at this

theorem transpose_comm (a b : Int) : transpose a b = transpose b a := by
  funext x
  unfold transpose
  by_cases hxa : x = a <;> by_cases hxb : x = b <;> simp [hxa, hxb] <;> omega

theorem reId_id (a b : Int) (r : Row) : (reId a b r).id = transpose a b r.id := rfl

/-! ### Generic list helpers -/

theorem find?_congr_pred {α : Type} {p q : α → Bool} {l : List α}
    (h : ∀ a ∈ l, p a = q a) : l.find? p = l.find? q := by
  induction l with
  | nil => rfl
  | cons a l ih =>
    have ha := h a (by simp)
    cases hpa : p a with
    | true =>
      rw [List.find?_cons_of_pos _ hpa, List.find?_cons_of_pos _ (ha ▸ hpa)]
    | false =>
      rw [List.find?_cons_of_neg _ (by simp [hpa]), List.find?_cons_of_neg _ (by simp [← ha, hpa])]
      exact ih fun x hx => h x (by simp [hx])

theorem map_id_filter (t : Table) (p : Int → Bool) :
    (t.filter fun r => p r.id).map Row.id = (t.map Row.id).filter p := by
  induction t with
  | nil => rfl
  | cons r t ih => by_cases h : p r.id <;> simp [h, ih]

theorem length_le_one_of_nodup_of_all_eq {l : List Int} {c : Int}
    (hnd : l.Nodup) (h : ∀ x ∈ l, x = c) : l.length ≤ 1 := by
  match l with
  | [] => simp
  | [a] => simp
  | a :: b :: l =>
    exfalso
    have ha := h a (by simp)
    have hb := h b (by simp)
    have : a ∉ b :: l := (List.nodup_cons.mp hnd).1
    exact this (by simp [ha, hb])

/-! ### The sentinel update chain -/

theorem updE_ok_of_target_absent (t : Table) (p v : Int)
    (h : ∀ r ∈ t, r.id ≠ v) :
    updE t p v = .ok (t.map fun r => if r.id = p then { r with id := v } else r) := by
  have hany : (t.any fun r => r.id == v) = false := by
    simp only [List.any_eq_false]
    intro r hr
    simp [h r hr]
  simp [updE, hany]

theorem swap_steps (t : Table) (lo hi : Int) (hn : ∀ r ∈ t, 0 ≤ r.id)
    (hlo : 0 ≤ lo) (hhi : 0 ≤ hi) (hne : lo ≠ hi) :
    ∃ t1 t2,
      updE t lo (-1) = .ok t1 ∧ updE t1 hi lo = .ok t2 ∧
      updE t2 (-1) hi = .ok (t.map (reId lo hi)) := by
  have e1 : ¬ ((-1 : Int) = hi) := by omega
  have e2 : ¬ ((-1 : Int) = lo) := by omega
  have e3 : ¬ (lo = -1) := by omega
  refine ⟨_, _, updE_ok_of_target_absent t lo (-1) (fun r hr => by have := hn r hr; omega),
    updE_ok_of_target_absent _ hi lo ?_, ?_⟩
  · intro r hr
    obtain ⟨s, hs, rfl⟩ := List.mem_map.mp hr
    by_cases h : s.id = lo
    · simp [h]
      omega
    · simp [h]
  · rw [updE_ok_of_target_absent _ (-1) hi ?side]
    case side =>
      intro r hr
      obtain ⟨s1, hs1, rfl⟩ := List.mem_map.mp hr
      obtain ⟨s, hs, rfl⟩ := List.mem_map.mp hs1
      by_cases h1 : s.id = lo
      · simp [h1, e1]
      · by_cases h2 : s.id = hi
        · simp [h1, h2, Ne.symm hne]
          exact hne
        · simp [h1, h2]
    congr 1
    rw [List.map_map, List.map_map]
    apply List.map_congr_left
    intro s hs
    have hsn := hn s hs
    have e4 : ¬ (s.id = -1) := by omega
    simp only [Function.comp]
    by_cases h1 : s.id = lo
    · simp [h1, e1, reId, transpose]
    · by_cases h2 : s.id = hi
      · simp [h1, h2, Ne.symm hne, e3, reId, transpose]
      · simp [h1, h2, e4, reId, transpose]

/-! ### Characterizing the id-resolution query -/

theorem matchIds_eq_filter (t : Table) (i j : Int) :
    matchIds t i j =
      List.insertionSort (fun a b => a ≤ b)
        ((t.map Row.id).filter fun x => x == i || x == j) := by
  unfold matchIds
  rw [map_id_filter t fun x => x == i || x == j]

theorem mem_of_mem_matchIds {t : Table} {i j x : Int} (h : x ∈ matchIds t i j) :
    x ∈ t.map Row.id := by
  rw [matchIds_eq_filter, List.mem_insertionSort, List.mem_filter] at h
  exact h.1

theorem matchIds_nodup (t : Table) (i j : Int) (hnd : (t.map Row.id).Nodup) :
    (matchIds t i j).Nodup := by
  rw [matchIds_eq_filter]
  exact ((List.perm_insertionSort _ _).nodup_iff).mpr (hnd.filter _)

theorem matchIds_length (t : Table) (i j : Int) :
    (matchIds t i j).length = ((t.map Row.id).filter fun x => x == i || x == j).length := by
  rw [matchIds_eq_filter]
  exact (List.perm_insertionSort _ _).length_eq

theorem matchIds_pair (t : Table) (idA idB : Int) (hnd : (t.map Row.id).Nodup)
    (hA : idA ∈ t.map Row.id) (hB : idB ∈ t.map Row.id) (hne : idA ≠ idB) :
    matchIds t idA idB = [min idA idB, max idA idB] := by
  rw [matchIds_eq_filter]
  have hperm : List.Perm ((t.map Row.id).filter fun x => x == idA || x == idB) [idA, idB] := by
    rw [List.perm_iff_count]
    intro x
    by_cases hxA : x = idA
    · subst hxA
      rw [List.count_filter (by simp)]
      rw [List.count_eq_one_of_mem hnd hA]
      simp [List.count_cons, hne]
    · by_cases hxB : x = idB
      · subst hxB
        rw [List.count_filter (by simp)]
        rw [List.count_eq_one_of_mem hnd hB]
        simp [List.count_cons, Ne.symm hne]
      · have h1 : x ∉ (t.map Row.id).filter fun x => x == idA || x == idB := by
          intro hx
          have := (List.mem_filter.mp hx).2
          simp [hxA, hxB] at this
        rw [List.count_eq_zero.mpr h1]
        simp [List.count_cons, hxA, hxB]
  have hsorted : List.Sorted (fun a b : Int => a ≤ b) [min idA idB, max idA idB] := by
    simp [List.sorted_cons]
  have hpm : List.Perm [idA, idB] [min idA idB, max idA idB] := by
    rcases le_total idA idB with h | h
    · rw [min_eq_left h, max_eq_right h]
    · rw [min_eq_right h, max_eq_left h]
      exact List.Perm.swap idB idA []
  exact List.eq_of_perm_of_sorted
    ((List.perm_insertionSort _ _).trans (hperm.trans hpm))
    (List.sorted_insertionSort _ _) hsorted

/-! ### The two outcomes of `swap_items` under a healthy lock -/

theorem swap_items_ok_of_matchIds (t : Table) (i j lo hi : Int) (hW : WF t)
    (hm : matchIds t i j = [lo, hi]) :
    swap_items .ok i j t = (.okEmpty, t.map (reId lo hi)) := by
  have hlo_mem : lo ∈ t.map Row.id := mem_of_mem_matchIds (by rw [hm]; simp)
  have hhi_mem : hi ∈ t.map Row.id := mem_of_mem_matchIds (by rw [hm]; simp)
  have hne : lo ≠ hi := by
    have := matchIds_nodup t i j hW.1
    rw [hm] at this
    simpa using (List.nodup_cons.mp this).1
  have hlo0 : 0 ≤ lo := by
    obtain ⟨r, hr, hrid⟩ := List.mem_map.mp hlo_mem
    exact hrid ▸ hW.2 r hr
  have hhi0 : 0 ≤ hi := by
    obtain ⟨r, hr, hrid⟩ := List.mem_map.mp hhi_mem
    exact hrid ▸ hW.2 r hr
  obtain ⟨t1, t2, h1, h2, h3⟩ := swap_steps t lo hi hW.2 hlo0 hhi0 hne
  simp [swap_items, hm, h1, h2, h3]

theorem swap_items_bad_of_short (t : Table) (i j : Int)
    (h : (matchIds t i j).length ≤ 1) :
    swap_items .ok i j t = (.badRequest, t) := by
  match hm : matchIds t i j with
  | [] => simp [swap_items, hm]
  | [a] => simp [swap_items, hm]
  | a :: b :: l => rw [hm] at h; simp at h

/-! ### `findRow` and the effect of `reId` on lookups -/

/-- The row matching an id, as order-independent observation of the table. -/
def findRow (t : Table) (i : Int) : Option Row :=
  t.find? fun r => r.id == i

theorem findRow_id {t : Table} {i : Int} {r : Row} (h : findRow t i = some r) :
    r.id = i := by
  have := List.find?_some h
  simpa using this

theorem findRow_mem {t : Table} {i : Int} {r : Row} (h : findRow t i = some r) :
    r ∈ t :=
  List.mem_of_find?_eq_some h

theorem mem_ids_of_findRow {t : Table} {i : Int} {r : Row} (h : findRow t i = some r) :
    i ∈ t.map Row.id :=
  List.mem_map.mpr ⟨r, findRow_mem h, findRow_id h⟩

theorem findRow_map_reId (t : Table) (a b j : Int) :
    findRow (t.map (reId a b)) j = (findRow t (transpose a b j)).map (reId a b) := by
  unfold findRow
  rw [List.find?_map]
  congr 1
  apply find?_congr_pred
  intro r _
  show ((reId a b r).id == j) = (r.id == transpose a b j)
  have hiff : transpose a b r.id = j ↔ r.id = transpose a b j := by
    constructor
    · intro h
      rw [← h, transpose_invol]
    · intro h
      rw [h, transpose_invol]
  rw [reId_id]
  by_cases h : transpose a b r.id = j
  · simp [h, hiff.mp h, transpose_invol]
  · simp [h]
    exact fun hc => h (hiff.mpr hc)

/-! ### Ordering facts about `listRows` -/

theorem listRows_perm (t : Table) : List.Perm (listRows t) t :=
  List.perm_insertionSort rle t

theorem listRows_sorted (t : Table) : List.Sorted rle (listRows t) :=
  List.sorted_insertionSort rle t

theorem listRows_ids_sorted (t : Table) :
    ((listRows t).map Row.id).Sorted (fun a b : Int => a ≤ b) := by
  rw [List.Sorted, List.pairwise_map]
  exact listRows_sorted t

theorem listRows_ids_nodup (t : Table) (h : (t.map Row.id).Nodup) :
    ((listRows t).map Row.id).Nodup :=
  (((listRows_perm t).map Row.id).nodup_iff).mpr h

theorem map_transpose_perm {L : List Int} {a b : Int}
    (hnd : L.Nodup) (ha : a ∈ L) (hb : b ∈ L) :
    List.Perm (L.map (transpose a b)) L := by
  rw [List.perm_iff_count]
  intro x
  have h1 : List.count x (L.map (transpose a b)) = List.count (transpose a b x) L := by
    conv_lhs => rw [← transpose_invol a b x]
    exact List.count_map_of_injective L _ (transpose_injective a b) _
  rw [h1]
  by_cases hxa : x = a
  · subst hxa
    rw [transpose_left, List.count_eq_one_of_mem hnd hb, List.count_eq_one_of_mem hnd ha]
  · by_cases hxb : x = b
    · subst hxb
      rw [transpose_right, List.count_eq_one_of_mem hnd ha, List.count_eq_one_of_mem hnd hb]
    · rw [transpose_other hxa hxb]

theorem map_reId_ids (t : Table) (a b : Int) :
    (t.map (reId a b)).map Row.id = (t.map Row.id).map (transpose a b) := by
  rw [List.map_map, List.map_map]
  rfl

theorem listRows_map_reId_ids (t : Table) (a b : Int) (hW : WF t)
    (ha : a ∈ t.map Row.id) (hb : b ∈ t.map Row.id) :
    (listRows (t.map (reId a b))).map Row.id = (listRows t).map Row.id := by
  refine List.eq_of_perm_of_sorted ?_ (listRows_ids_sorted _) (listRows_ids_sorted _)
  have p1 : List.Perm ((listRows (t.map (reId a b))).map Row.id)
      ((t.map (reId a b)).map Row.id) := (listRows_perm _).map Row.id
  rw [map_reId_ids t a b] at p1
  exact p1.trans ((map_transpose_perm hW.1 ha hb).trans ((listRows_perm t).map Row.id).symm)

/-! ### Reachable tables are well-formed -/

theorem le_foldr_max {l : List Int} {x : Int} (h : x ∈ l) : x ≤ l.foldr max 0 := by
  induction l with
  | nil => cases h
  | cons a l ih =>
    rcases List.mem_cons.mp h with rfl | h
    · exact le_max_left _ _
    · exact (ih h).trans (le_max_right _ _)

theorem foldr_max_nonneg (l : List Int) : 0 ≤ l.foldr max 0 := by
  induction l with
  | nil => simp
  | cons a l ih => exact ih.trans (le_max_right _ _)

theorem WF_nil : WF [] := by
  constructor <;> simp

theorem WF_add_item (t : Table) (n : String) (b : Bool) (hW : WF t) :
    WF (add_item .ok n b t).2 := by
  rcases hW with ⟨hnd, hpos⟩
  constructor
  · simp [add_item, List.nodup_append, hnd]
    intro x hx
    have hxid : x.id ∈ t.map Row.id := List.mem_map.mpr ⟨x, hx, rfl⟩
    have hle := le_foldr_max hxid
    simp [nextId]
    omega
  · intro r hr
    simp [add_item] at hr
    rcases hr with hr | hr
    · exact hpos r hr
    · have := foldr_max_nonneg (t.map Row.id)
      simp [hr, nextId]
      omega

theorem update_item_status_ids (t : Table) (i : Int) :
    ((update_item_status .ok i t).2).map Row.id = t.map Row.id := by
  simp only [update_item_status, List.map_map]
  apply List.map_congr_left
  intro r _
  by_cases h : r.id = i <;> simp [Function.comp, h]

theorem WF_update_item_status (t : Table) (i : Int) (hW : WF t) :
    WF (update_item_status .ok i t).2 := by
  rcases hW with ⟨hnd, hpos⟩
  constructor
  · rw [update_item_status_ids]
    exact hnd
  · intro r hr
    simp [update_item_status] at hr
    obtain ⟨s, hs, rfl⟩ := hr
    have := hpos s hs
    by_cases h : s.id = i <;> simp [h] <;> omega

theorem WF_map_reId (t : Table) (a b : Int) (hW : WF t)
    (ha : a ∈ t.map Row.id) (hb : b ∈ t.map Row.id) :
    WF (t.map (reId a b)) := by
  rcases hW with ⟨hnd, hpos⟩
  have ha0 : 0 ≤ a := by
    obtain ⟨r, hr, hrid⟩ := List.mem_map.mp ha
    exact hrid ▸ hpos r hr
  have hb0 : 0 ≤ b := by
    obtain ⟨r, hr, hrid⟩ := List.mem_map.mp hb
    exact hrid ▸ hpos r hr
  constructor
  · rw [map_reId_ids]
    exact hnd.map (transpose_injective a b)
  · intro r hr
    obtain ⟨s, hs, rfl⟩ := List.mem_map.mp hr
    have := hpos s hs
    rw [reId_id]
    unfold transpose
    by_cases h1 : s.id = a <;> by_cases h2 : s.id = b <;> simp [h1, h2] <;> omega

theorem WF_swap_items (t : Table) (i j : Int) (hW : WF t) :
    WF (swap_items .ok i j t).2 := by
  match hm : matchIds t i j with
  | [] => rw [swap_items_bad_of_short t i j (by rw [hm]; simp)]; exact hW
  | [a] => rw [swap_items_bad_of_short t i j (by rw [hm]; simp)]; exact hW
  | a :: b :: c :: l =>
    exfalso
    have hlen := matchIds_length t i j
    rw [hm] at hlen
    have hsub : ((t.map Row.id).filter fun x => x == i || x == j) ⊆ [i, j] := by
      intro x hx
      have := (List.mem_filter.mp hx).2
      simp at this
      simpa using this
    have hnd : ((t.map Row.id).filter fun x => x == i || x == j).Nodup := hW.1.filter _
    have hle := (List.subperm_of_subset hnd hsub).length_le
    simp at hlen hle
    omega
  | [a, b] =>
    rw [swap_items_ok_of_matchIds t i j a b hW hm]
    exact WF_map_reId t a b hW
      (mem_of_mem_matchIds (by rw [hm]; simp))
      (mem_of_mem_matchIds (by rw [hm]; simp))

theorem WF_runOp (t : Table) (op : Op) (hW : WF t) : WF (runOp t op) := by
  cases op with
  | create n b => exact WF_add_item t n b hW
  | toggle i => exact WF_update_item_status t i hW
  | swap i j => exact WF_swap_items t i j hW

theorem WF_foldl (ops : List Op) (t : Table) (hW : WF t) :
    WF (ops.foldl runOp t) := by
  induction ops generalizing t with
  | nil => exact hW
  | cons op ops ih => exact ih _ (WF_runOp t op hW)

theorem WF_run (ops : List Op) : WF (run ops) :=
  WF_foldl ops [] WF_nil

/-! ### Claim theorems -/

/-- Demonstration table used by the concrete witnesses. -/
def demoTable : Table :=
  [⟨1, "milk", .text "true"⟩, ⟨2, "bread", .text "false"⟩, ⟨3, "eggs", .text "true"⟩]

/-- C1: for every well-formed table containing two distinct rows with ids
`idA` and `idB`, `swap_items` succeeds (200, empty body), afterwards the row
identified by either id holds the `(name, is_shopped)` data previously held
under the other id (in particular the lower id holds the data previously at
the higher id and vice versa), every other row is unchanged, and the id
sequence produced by the `ORDER BY id` listing query is unchanged, so the
listing differs only in those two rows' positions. -/
theorem swap_valid_pair_exchanges_rows (t : Table) (idA idB : Int) (rA rB : Row)
    (hW : WF t) (hne : idA ≠ idB)
    (hA : findRow t idA = some rA) (hB : findRow t idB = some rB) :
    swap_items .ok idA idB t = (.okEmpty, t.map (reId idA idB)) ∧
    findRow (t.map (reId idA idB)) idA = some { rB with id := idA } ∧
    findRow (t.map (reId idA idB)) idB = some { rA with id := idB } ∧
    (∀ k, k ≠ idA → k ≠ idB → findRow (t.map (reId idA idB)) k = findRow t k) ∧
    (listRows (t.map (reId idA idB))).map Row.id = (listRows t).map Row.id := by
  have hAmem := mem_ids_of_findRow hA
  have hBmem := mem_ids_of_findRow hB
  have hmatch := matchIds_pair t idA idB hW.1 hAmem hBmem hne
  have hre : reId (min idA idB) (max idA idB) = reId idA idB := by
    rcases le_total idA idB with h | h
    · rw [min_eq_left h, max_eq_right h]
    · rw [min_eq_right h, max_eq_left h]
      funext r
      simp only [reId]
      rw [transpose_comm]
  refine ⟨?_, ?_, ?_, ?_, ?_⟩
  · have := swap_items_ok_of_matchIds t idA idB _ _ hW hmatch
    rwa [hre] at this
  · rw [findRow_map_reId, transpose_left, hB]
    simp [reId, findRow_id hB, transpose_right]
  · rw [findRow_map_reId, transpose_right, hA]
    simp [reId, findRow_id hA, transpose_left]
  · intro k hkA hkB
    rw [findRow_map_reId, transpose_other hkA hkB]
    cases hf : findRow t k with
    | none => simp
    | some r =>
      have hrid := findRow_id hf
      have h1 : r.id ≠ idA := by rw [hrid]; exact hkA
      have h2 : r.id ≠ idB := by rw [hrid]; exact hkB
      simp [reId, transpose_other h1 h2]
  · exact listRows_map_reId_ids t idA idB hW hAmem hBmem

/-- Witness for C1 at a concrete three-row table, swapping ids 3 and 1. -/
theorem swap_valid_pair_exchanges_rows_witness :
    WF demoTable ∧ (3 : Int) ≠ 1 ∧
    findRow demoTable 3 = some ⟨3, "eggs", .text "true"⟩ ∧
    findRow demoTable 1 = some ⟨1, "milk", .text "true"⟩ ∧
    (swap_items .ok 3 1 demoTable = (.okEmpty, demoTable.map (reId 3 1)) ∧
      findRow (demoTable.map (reId 3 1)) 3 = some ⟨3, "milk", .text "true"⟩ ∧
      findRow (demoTable.map (reId 3 1)) 1 = some ⟨1, "eggs", .text "true"⟩ ∧
      (∀ k, k ≠ 3 → k ≠ 1 → findRow (demoTable.map (reId 3 1)) k = findRow demoTable k) ∧
      (listRows (demoTable.map (reId 3 1))).map Row.id = (listRows demoTable).map Row.id) :=
  ⟨by decide, by decide, by decide, by decide,
    swap_valid_pair_exchanges_rows demoTable 3 1 ⟨3, "eggs", .text "true"⟩
      ⟨1, "milk", .text "true"⟩ (by decide) (by decide) (by decide) (by decide)⟩

/-- C2: the claim says `toggle` flips the listed `is_shopped` value. In the
code, a row created with `is_shopped = true` is stored as the TEXT `"true"`
and listed as `true`; toggling it executes SQLite `NOT "true"`, which is the
INTEGER `1` (not a flipped boolean), after which the listing request fails
with 500 (string read on an INTEGER cell) — and even a lenient textual read
of `1` would decode to `true` again, not `false`. -/
theorem toggle_of_stored_true_not_flipped :
    (add_item .ok "milk" true []).2 = [⟨1, "milk", .text "true"⟩] ∧
    get_shopping_list .ok [⟨1, "milk", .text "true"⟩] = .okJson [⟨1, "milk", true⟩] ∧
    update_item_status .ok 1 [⟨1, "milk", .text "true"⟩] = (.okEmpty, [⟨1, "milk", .int 1⟩]) ∧
    get_shopping_list .ok [⟨1, "milk", .int 1⟩] = .internalServerError ∧
    decode_is_shopped "1" = true := by decide

/-- C3: toggling the same id twice does not return the listed `is_shopped`
to its original value: a row stored as TEXT `"true"` (listed `true`) holds
the INTEGER `1` after one toggle and the INTEGER `0` after two, on which the
listing request fails with 500 — and even a lenient textual read of `0`
would decode to `false`, not the original `true`. -/
theorem double_toggle_not_restored :
    get_shopping_list .ok [⟨1, "milk", .text "true"⟩] = .okJson [⟨1, "milk", true⟩] ∧
    (update_item_status .ok 1 (update_item_status .ok 1 [⟨1, "milk", .text "true"⟩]).2).2
      = [⟨1, "milk", .int 0⟩] ∧
    get_shopping_list .ok [⟨1, "milk", .int 0⟩] = .internalServerError ∧
    decode_is_shopped "0" = false := by decide

/-- C4: swapping with at least one absent id answers 400 and leaves the
table unchanged. -/
theorem swap_missing_id_bad_request (t : Table) (idA idB : Int)
    (hnd : (t.map Row.id).Nodup)
    (h : idA ∉ t.map Row.id ∨ idB ∉ t.map Row.id) :
    swap_items .ok idA idB t = (.badRequest, t) := by
  apply swap_items_bad_of_short
  rw [matchIds_length]
  rcases h with h | h
  · have hall : ∀ x ∈ (t.map Row.id).filter fun x => x == idA || x == idB, x = idB := by
      intro x hx
      rcases List.mem_filter.mp hx with ⟨hmem, hq⟩
      simp at hq
      rcases hq with rfl | rfl
      · exact absurd hmem h
      · rfl
    exact length_le_one_of_nodup_of_all_eq (hnd.filter _) hall
  · have hall : ∀ x ∈ (t.map Row.id).filter fun x => x == idA || x == idB, x = idA := by
      intro x hx
      rcases List.mem_filter.mp hx with ⟨hmem, hq⟩
      simp at hq
      rcases hq with rfl | rfl
      · rfl
      · exact absurd hmem h
    exact length_le_one_of_nodup_of_all_eq (hnd.filter _) hall

/-- Witness for C4: id 7 is absent from the demonstration table. -/
theorem swap_missing_id_bad_request_witness :
    (demoTable.map Row.id).Nodup ∧
    ((7 : Int) ∉ demoTable.map Row.id ∨ (1 : Int) ∉ demoTable.map Row.id) ∧
    swap_items .ok 7 1 demoTable = (.badRequest, demoTable) :=
  ⟨by decide, by decide, swap_missing_id_bad_request demoTable 7 1 (by decide) (by decide)⟩

/-- C5: on a well-formed table containing both (distinct) ids, `swap_items`
resolves the matching ids sorted ascending into canonical `(lo, hi)`, the
sentinel `-1` collides with no live row (ids are non-negative), and the swap
is exactly the three sentinel moves `lo to -1`, `hi to lo`, `-1 to hi`, each
succeeding, followed by the commit of the resulting table. -/
theorem swap_follows_sentinel_algorithm (t : Table) (idA idB : Int)
    (hW : WF t) (hne : idA ≠ idB)
    (hA : idA ∈ t.map Row.id) (hB : idB ∈ t.map Row.id) :
    matchIds t idA idB = [min idA idB, max idA idB] ∧
    min idA idB < max idA idB ∧
    (-1 : Int) ∉ t.map Row.id ∧
    ∃ t1 t2,
      updE t (min idA idB) (-1) = .ok t1 ∧
      updE t1 (max idA idB) (min idA idB) = .ok t2 ∧
      updE t2 (-1) (max idA idB) = .ok (t.map (reId (min idA idB) (max idA idB))) ∧
      swap_items .ok idA idB t = (.okEmpty, t.map (reId (min idA idB) (max idA idB))) := by
  have hA0 : 0 ≤ idA := by
    obtain ⟨r, hr, hrid⟩ := List.mem_map.mp hA
    exact hrid ▸ hW.2 r hr
  have hB0 : 0 ≤ idB := by
    obtain ⟨r, hr, hrid⟩ := List.mem_map.mp hB
    exact hrid ▸ hW.2 r hr
  have hmatch := matchIds_pair t idA idB hW.1 hA hB hne
  have hlt : min idA idB < max idA idB := min_lt_max.mpr hne
  have hnin : (-1 : Int) ∉ t.map Row.id := by
    intro hc
    obtain ⟨r, hr, hrid⟩ := List.mem_map.mp hc
    have := hW.2 r hr
    omega
  obtain ⟨t1, t2, h1, h2, h3⟩ :=
    swap_steps t (min idA idB) (max idA idB) hW.2 (le_min hA0 hB0)
      (le_max_of_le_left hA0) (ne_of_lt hlt)
  exact ⟨hmatch, hlt, hnin, t1, t2, h1, h2, h3,
    swap_items_ok_of_matchIds t idA idB _ _ hW hmatch⟩

/-- Witness for C5 at the demonstration table, swapping ids 3 and 1. -/
theorem swap_follows_sentinel_algorithm_witness :
    WF demoTable ∧ (3 : Int) ≠ 1 ∧
    (3 : Int) ∈ demoTable.map Row.id ∧ (1 : Int) ∈ demoTable.map Row.id ∧
    (matchIds demoTable 3 1 = [min 3 1, max 3 1] ∧
      min (3 : Int) 1 < max 3 1 ∧
      (-1 : Int) ∉ demoTable.map Row.id ∧
      ∃ t1 t2,
        updE demoTable (min 3 1) (-1) = .ok t1 ∧
        updE t1 (max 3 1) (min 3 1) = .ok t2 ∧
        updE t2 (-1) (max 3 1) = .ok (demoTable.map (reId (min 3 1) (max 3 1))) ∧
        swap_items .ok 3 1 demoTable = (.okEmpty, demoTable.map (reId (min 3 1) (max 3 1)))) :=
  ⟨by decide, by decide, by decide, by decide,
    swap_follows_sentinel_algorithm demoTable 3 1 (by decide) (by decide) (by decide) (by decide)⟩

/-- C6: the Store's decoding of the persisted `is_shopped` text is lenient
and case-insensitive: `"TRUE"` and `"1"` decode to true, `"false"` and
`"0"` decode to false, and an unrecognized string such as `"maybe"` decodes
to false. -/
theorem decode_is_shopped_lenient :
    decode_is_shopped "TRUE" = true ∧ decode_is_shopped "1" = true ∧
    decode_is_shopped "false" = false ∧ decode_is_shopped "0" = false ∧
    decode_is_shopped "maybe" = false := by decide

/-- C7 (amended): after every sequence of create/toggle/swap operations from
the empty table, the id sequence produced by the listing query's
`ORDER BY id` is strictly ascending — so whenever the listing request
succeeds its items are ordered ascending by id.  (The request itself fails
with 500 once a toggle has hit an existing row; see the counterexample.) -/
theorem listing_ids_ascending_after_any_ops (ops : List Op) :
    ((listRows (run ops)).map Row.id).Sorted (fun a b : Int => a < b) := by
  have hW := WF_run ops
  exact (listRows_ids_sorted _).lt_of_le (listRows_ids_nodup _ hW.1)

/-- Counterexample to C7 as stated: after `create "a" false` followed by
`toggle 1`, the listing request does not return the items at all — the
toggled cell holds the INTEGER `1`, the string read fails, and the request
answers 500. -/
theorem list_request_fails_after_toggle :
    run [.create "a" false, .toggle 1] = [⟨1, "a", .int 1⟩] ∧
    listItems [⟨1, "a", SqlVal.int 1⟩] = .error () ∧
    get_shopping_list .ok (run [.create "a" false, .toggle 1]) = .internalServerError :=
  ⟨by decide, rfl, by decide⟩

/-- C8: toggling an id that matches no row answers 200 and leaves the table
unchanged. -/
theorem toggle_missing_id_is_noop (t : Table) (i : Int) (h : i ∉ t.map Row.id) :
    update_item_status .ok i t = (.okEmpty, t) := by
  have hmap :
      (t.map fun r => if r.id = i then { r with is_shopped := sqlNot r.is_shopped } else r)
        = t := by
    have hcong : ∀ r ∈ t,
        (if r.id = i then { r with is_shopped := sqlNot r.is_shopped } else r) = id r := by
      intro r hr
      have hne : r.id ≠ i := fun hc => h (List.mem_map.mpr ⟨r, hr, hc⟩)
      simp [hne]
    rw [List.map_congr_left hcong, List.map_id]
  simp [update_item_status, hmap]

/-- Witness for C8: id 5 is absent from the demonstration table. -/
theorem toggle_missing_id_is_noop_witness :
    (5 : Int) ∉ demoTable.map Row.id ∧
    update_item_status .ok 5 demoTable = (.okEmpty, demoTable) :=
  ⟨by decide, toggle_missing_id_is_noop demoTable 5 (by decide)⟩

/-- C9 (amended): on lock-acquisition failure no handler touches the Store
and every handler abandons the request, but only `get_shopping_list` reports
the 500 response itself; `add_item`, `update_item_status` and `swap_items`
panic on their `unwrap()` instead of building a response. -/
theorem lock_failure_outcomes (t : Table) (n : String) (b : Bool) (i j k : Int) :
    get_shopping_list .poisoned t = .internalServerError ∧
    add_item .poisoned n b t = (.panicked, t) ∧
    update_item_status .poisoned i t = (.panicked, t) ∧
    swap_items .poisoned j k t = (.panicked, t) :=
  ⟨rfl, rfl, rfl, rfl⟩

/-- Counterexample to C9 as stated: `add_item` under a poisoned lock panics
rather than reporting the 500 response the claim requires. -/
theorem add_item_lock_failure_panics_not_500 :
    (add_item .poisoned "milk" false []).1 = .panicked ∧
    (add_item .poisoned "milk" false []).1 ≠ .internalServerError := by decide

/-- C10: swapping an id with itself answers 400 and leaves the table
unchanged, even when a row with that id exists, because the id-resolution
query returns at most one row for a duplicated argument. -/
theorem swap_same_id_bad_request (t : Table) (i : Int)
    (hnd : (t.map Row.id).Nodup) :
    swap_items .ok i i t = (.badRequest, t) := by
  apply swap_items_bad_of_short
  rw [matchIds_length]
  have hall : ∀ x ∈ (t.map Row.id).filter fun x => x == i || x == i, x = i := by
    intro x hx
    have := (List.mem_filter.mp hx).2
    simpa using this
  exact length_le_one_of_nodup_of_all_eq (hnd.filter _) hall

/-- Witness for C10: id 1 is present in the demonstration table, and
swapping it with itself still answers 400 without touching the table. -/
theorem swap_same_id_bad_request_witness :
    (demoTable.map Row.id).Nodup ∧ (1 : Int) ∈ demoTable.map Row.id ∧
    swap_items .ok 1 1 demoTable = (.badRequest, demoTable) :=
  ⟨by decide, by decide, swap_same_id_bad_request demoTable 1 (by decide)⟩
